import Mathlib

/-!
# Verification of the brite-validation request pipeline

A shallow embedding of the authorization-and-validation chain found in
`src/channel/UpdateChain.ts` (which also carries `chain.ts`, `channel.ts`
and `CreateChain.ts`), `src/channel/ReadChain.ts` (which also carries
`DeleteChain.ts`) and `src/channel/DataValidationSchema.ts`.

JavaScript values flowing through the pipeline are modelled by the
`JsonVal` family; the shared `node-cache` instance backing the rate
limiter is modelled by `Cache`, with time measured in milliseconds.
JavaScript numbers appearing in time arithmetic are modelled as exact
rationals (`JsNum`, kept unnormalized so that all arithmetic is
kernel-computable); `JsNum.eqv` is numeric equality.
-/

/-! ## Exact numbers for time arithmetic -/

/-- An exact rational `num / den`, left unnormalized. All values built by
the model have a positive denominator. -/
structure JsNum where
  num : Int
  den : Nat
deriving DecidableEq, Repr

instance (n : Nat) : OfNat JsNum n := ⟨⟨n, 1⟩⟩
instance : IntCast JsNum := ⟨fun n => ⟨n, 1⟩⟩
instance : Add JsNum := ⟨fun a b => ⟨a.num * (b.den : Int) + b.num * (a.den : Int), a.den * b.den⟩⟩
instance : Sub JsNum := ⟨fun a b => ⟨a.num * (b.den : Int) - b.num * (a.den : Int), a.den * b.den⟩⟩
instance : Mul JsNum := ⟨fun a b => ⟨a.num * b.num, a.den * b.den⟩⟩
instance : Div JsNum :=
  ⟨fun a b =>
    if 0 ≤ b.num then ⟨a.num * (b.den : Int), a.den * b.num.natAbs⟩
    else ⟨-(a.num * (b.den : Int)), a.den * b.num.natAbs⟩⟩

/-- Numeric order (correct for positive denominators, the only ones the
model produces). -/
def JsNum.le (a b : JsNum) : Bool := a.num * (b.den : Int) ≤ b.num * (a.den : Int)

/-- Numeric equality of exact rationals by cross multiplication. -/
def JsNum.eqv (a b : JsNum) : Prop := a.num * (b.den : Int) = b.num * (a.den : Int)

instance (a b : JsNum) : Decidable (a.eqv b) := by unfold JsNum.eqv; infer_instance

/-! ## JavaScript values -/

mutual
/-- A JavaScript value: strings, numbers, booleans, `null`, `undefined`,
Mongo `ObjectId`s (the type of `user._id`), arrays and plain objects. -/
inductive JsonVal where
  | str (s : String)
  | num (n : Int)
  | boolV (b : Bool)
  | nullV
  | undef
  | oid (s : String)
  | arr (xs : JsonList)
  | obj (fs : JsonFields)
deriving DecidableEq, Repr

/-- Elements of a JavaScript array. -/
inductive JsonList where
  | nil
  | cons (hd : JsonVal) (tl : JsonList)
deriving DecidableEq, Repr

/-- Fields of a JavaScript object, in insertion order. -/
inductive JsonFields where
  | nil
  | cons (k : String) (v : JsonVal) (tl : JsonFields)
deriving DecidableEq, Repr
end

/-- JavaScript truthiness of a modelled value (`NaN` does not occur as a
stored value in the model). Objects and arrays are always truthy. -/
def jsTruthy : JsonVal → Bool
  | .str s => !(s == "")
  | .num n => !(n == 0)
  | .boolV b => b
  | .nullV => false
  | .undef => false
  | .oid _ => true
  | .arr _ => true
  | .obj _ => true

/-- Property lookup on an object's field list; `none` plays the role of
JavaScript `undefined` for an absent key. -/
def JsonFields.lookup : JsonFields → String → Option JsonVal
  | .nil, _ => none
  | .cons k v fs, key => if k = key then some v else fs.lookup key

/-- `delete obj[key]`: removes every binding of `key`. -/
def JsonFields.deleteKey : JsonFields → String → JsonFields
  | .nil, _ => .nil
  | .cons k v fs, key => if k = key then fs.deleteKey key else .cons k v (fs.deleteKey key)

/-- The `StatusError(status, title, message, detail?)` class of
`@libs/errors/StatusError`: an HTTP-style error surfaced to the routing
layer. -/
structure StatusError where
  status : Nat
  title : String
  message : String
  detail : Option (List String) := none
deriving DecidableEq, Repr

/-- The distinguished user types of `@libs/constants/user.const`; only the
visitor type is inspected by the chain itself. -/
inductive UserType where
  | visitor
  | member
  | admin
deriving DecidableEq, Repr

/-! ## The shared cache backing the rate limiter -/

/-- The penalty-tracking record stored under `key + "-retry"`:
`retry` is the escalation count, `count` the remaining penalty-exempt
denials before the next escalation. -/
structure Retry where
  count : Int
  retry : Int
deriving DecidableEq, Repr

/-- A value stored in the `node-cache` instance: the primary counter is a
number, the penalty entry a `Retry` record. `nan` models the result of
JavaScript arithmetic on a non-number and is never stored by reachable
executions. -/
inductive CacheVal where
  | num (n : Int)
  | retryVal (r : Retry)
  | nan
deriving DecidableEq, Repr

/-- `value === 0` in JavaScript: a non-number value is never strictly
equal to `0`. -/
def CacheVal.jsEqZero : CacheVal → Bool
  | .num n => n == 0
  | _ => false

/-- `value - 1` in JavaScript: subtracting from a non-number yields `NaN`. -/
def CacheVal.jsDec : CacheVal → CacheVal
  | .num n => .num (n - 1)
  | _ => .nan

/-- The shared `node-cache` store: a list of `(key, value, absolute
expiry time in ms)` entries, at most one live entry per key. -/
structure Cache where
  entries : List (String × CacheVal × JsNum)
deriving DecidableEq, Repr

/-- The empty cache. -/
def Cache.empty : Cache := ⟨[]⟩

/-- Lookup of a live (unexpired) entry at time `now`; expired entries
behave as absent, as in `node-cache`. Returns the stored value together
with its absolute expiry timestamp (`getTtl`). -/
def Cache.findLive (c : Cache) (now : JsNum) (k : String) : Option (CacheVal × JsNum) :=
  match c.entries.find? (fun e => e.1 == k) with
  | some (_, v, t) => if now.le t then some (v, t) else none
  | none => none

/-- `cache.has(key)` at time `now`. -/
def Cache.hasKey (c : Cache) (now : JsNum) (k : String) : Bool :=
  (c.findLive now k).isSome

/-- `cache.set(key, value, ttlSeconds)` at time `now`: replaces any entry
for `key` with one expiring at `now + ttl * 1000` milliseconds. -/
def Cache.setVal (c : Cache) (now : JsNum) (k : String) (v : CacheVal) (ttl : JsNum) : Cache :=
  ⟨(k, v, now + ttl * 1000) :: c.entries.filter (fun e => !(e.1 == k))⟩

/-- `cache.del(key)`. -/
def Cache.del (c : Cache) (k : String) : Cache :=
  ⟨c.entries.filter (fun e => !(e.1 == k))⟩

/-! ## `BaseChain.checkRateLimit` (`chain.ts`)

The sliding-window limiter with escalating penalty. The counter key is
`` `${path}-${address}` ``, the penalty key adds the suffix `-retry`.
Denial is the thrown 429 `StatusError`; all cache writes preceding the
throw are reflected in the returned cache. -/

/-- The 429 error thrown on denial (the doubled "the the" is verbatim from
the source). -/
def tooManyRequestsError : StatusError :=
  { status := 429, title := "Too Many Request",
    message := "You have exceeded the the number of request at this endpoint." }

/-- `BaseChain.checkRateLimit(windows, max)` for a chain holding a client
address and a shared cache, evaluated at time `now` (ms). Returns the
updated cache and the thrown error, if any. -/
def checkRateLimit (path address : String) (windows : JsNum) (max : Int) (now : JsNum)
    (c : Cache) : Cache × Option StatusError :=
  let key := path ++ "-" ++ address
  let retryKey := key ++ "-retry"
  match c.findLive now key with
  | some (v, keyExp) =>
    if v.jsEqZero then
      match c.findLive now retryKey with
      | some (.retryVal r, _) =>
        if r.count = 0 then
          let r2 : Retry := { retry := r.retry + 1, count := 2 * max - 1 }
          let c1 := c.setVal now retryKey (.retryVal r2) windows
          let c2 := c1.setVal now key (.num 0) (windows * ((r.retry + 1 : Int) : JsNum))
          (c2, some tooManyRequestsError)
        else
          let r2 : Retry := { retry := r.retry, count := r.count - 1 }
          (c.setVal now retryKey (.retryVal r2) windows, some tooManyRequestsError)
      | some (_, _) =>
        -- a non-`Retry` value at the penalty key: `retry.count` is `undefined`,
        -- which is not `=== 0`, so the decrement branch corrupts the entry;
        -- unreachable, since only `Retry` records are ever stored there
        (c.setVal now retryKey .nan windows, some tooManyRequestsError)
      | none =>
        let r : Retry := { retry := 1, count := max * 2 - 1 }
        (c.setVal now retryKey (.retryVal r) windows, some tooManyRequestsError)
    else
      let ttl := keyExp
      let newTtl := (ttl - now) / 1000
      (c.setVal now key v.jsDec newTtl, none)
  | none =>
    let c1 := if c.hasKey now retryKey then c.del retryKey else c
    (c1.setVal now key (.num (max - 1)) windows, none)

/-- The guard at the top of `checkRateLimit`: a chain constructed without
a client address or without a shared cache returns `this` at once, with
no cache access and no denial. -/
def checkRateLimitOpt (path : String) (address : Option String) (windows : JsNum)
    (max : Int) (now : JsNum) (c : Option Cache) : Option Cache × Option StatusError :=
  match address, c with
  | some a, some cc =>
    let r := checkRateLimit path a windows max now cc
    (some r.1, r.2)
  | _, _ => (c, none)

/-- Runs a sequence of rate-limit checks at the given times, collecting
each check's outcome and the final cache state. -/
def rlRun (path address : String) (windows : JsNum) (max : Int) :
    List JsNum → Cache → Cache × List (Option StatusError)
  | [], c => (c, [])
  | t :: ts, c =>
    let r1 := checkRateLimit path address windows max t c
    let rest := rlRun path address windows max ts r1.1
    (rest.1, r1.2 :: rest.2)

/-! ## JavaScript string and object helpers -/

/-- `lodash.capitalize`: first character upper-cased, the rest lower-cased. -/
def capitalize (s : String) : String := (s.take 1).toUpper ++ (s.drop 1).toLower

/-- `a || b` on optional strings (the empty string is falsy). -/
def jsOrStr (a b : Option String) : Option String :=
  match a with
  | some s => if s == "" then b else some s
  | none => b

/-- `a || b` on optional values, with JavaScript truthiness. -/
def jsOrVal (a : Option JsonVal) (b : JsonVal) : JsonVal :=
  match a with
  | some v => if jsTruthy v then v else b
  | none => b

/-- `a ?? b`: nullish coalescing (`null` and `undefined` fall through). -/
def jsCoalesce (a b : Option JsonVal) : Option JsonVal :=
  match a with
  | some .nullV => b
  | some .undef => b
  | some v => some v
  | none => b

/-- Truthiness of an optional value (`none` is `undefined`). -/
def jsTruthyOpt : Option JsonVal → Bool
  | some v => jsTruthy v
  | none => false

/-- `lodash.isEmpty` on an object. -/
def JsonFields.isEmptyObj : JsonFields → Bool
  | .nil => true
  | .cons _ _ _ => false

/-- Array indexing, `xs[i]` (`undefined` past the end). -/
def JsonList.get? : JsonList → Nat → Option JsonVal
  | .nil, _ => none
  | .cons x _, 0 => some x
  | .cons _ xs, n + 1 => xs.get? n

/-- Replaces the value bound to `key`, keeping field order. -/
def JsonFields.setKey : JsonFields → String → JsonVal → JsonFields
  | .nil, _, _ => .nil
  | .cons k v fs, key, nv => if k = key then .cons k nv (fs.setKey key nv) else .cons k v (fs.setKey key nv)

/-- Appends a new field at the end. -/
def JsonFields.appendKey : JsonFields → String → JsonVal → JsonFields
  | .nil, key, nv => .cons key nv .nil
  | .cons k v fs, key, nv => .cons k v (fs.appendKey key nv)

mutual
/-- `lodash.merge(dst, src)` restricted to the cases the chain exercises:
plain objects merge recursively, an `undefined` source leaf keeps the
destination, any other source value wins. (`lodash` is an external
collaborator; this models its documented contract for these cases.) -/
def jsMerge : JsonVal → JsonVal → JsonVal
  | .obj fs, .obj gs => .obj (jsMergeFields fs gs)
  | dst, .undef => dst
  | _, src => src

/-- Field-wise part of `jsMerge`: existing keys are updated in place,
new keys are appended, `undefined` source values are skipped. -/
def jsMergeFields : JsonFields → JsonFields → JsonFields
  | fs, .nil => fs
  | fs, .cons k v gs =>
    let fs' :=
      match fs.lookup k with
      | some dv => fs.setKey k (jsMerge dv v)
      | none => if v == .undef then fs else fs.appendKey k v
    jsMergeFields fs' gs
end

/-! ## `BaseChain.setCurrentUser` (`chain.ts`)

`cloneDeepWith(data, (value) => value === "*current_user*" ? id : undefined)`:
a deep copy in which every scalar equal to the sentinel is replaced by the
principal's identity — stringified when `stringify` is set, the raw
`ObjectId` otherwise. The per-key observer callback only feeds the
upload-field detector and does not alter the produced value. -/

mutual
def setCurrentUser (userId : String) (stringify : Bool) : JsonVal → JsonVal
  | .str s =>
    if s = "*current_user*" then (if stringify then .str userId else .oid userId) else .str s
  | .arr xs => .arr (setCurrentUserList userId stringify xs)
  | .obj fs => .obj (setCurrentUserFields userId stringify fs)
  | v => v

def setCurrentUserList (userId : String) (stringify : Bool) : JsonList → JsonList
  | .nil => .nil
  | .cons x xs => .cons (setCurrentUser userId stringify x) (setCurrentUserList userId stringify xs)

def setCurrentUserFields (userId : String) (stringify : Bool) : JsonFields → JsonFields
  | .nil => .nil
  | .cons k v fs => .cons k (setCurrentUser userId stringify v) (setCurrentUserFields userId stringify fs)
end

mutual
/-- Does the sentinel `"*current_user*"` occur as a scalar anywhere in the
value? -/
def hasSentinel : JsonVal → Bool
  | .str s => s == "*current_user*"
  | .arr xs => hasSentinelList xs
  | .obj fs => hasSentinelFields fs
  | _ => false

def hasSentinelList : JsonList → Bool
  | .nil => false
  | .cons x xs => hasSentinel x || hasSentinelList xs

def hasSentinelFields : JsonFields → Bool
  | .nil => false
  | .cons _ v fs => hasSentinel v || hasSentinelFields fs
end

/-! ## Authorization checks (`chain.ts`) -/

/-- Modelled from the spec: `constructAction` lives in
`@libs/security/action`, outside `src/`. §3 of the spec: the action string
is "composed deterministically from `{prefix}{baseAction}{:Field}{:PrefixAction}`",
trimmed (examples `"Create:User"`, `"Update:User:Email"`). The chain's
operation kind ("Create"/"Read"/"Update"/"Delete", `this.prefix` in the
source) is called `verb` here. -/
def constructAction (base : String) (verb : Option String) (fld : Option String)
    (prefixAction : Option String) : String :=
  ((verb.elim "" (fun p => p ++ ":")) ++ base ++ (fld.elim "" (fun f => ":" ++ f)) ++
    (prefixAction.elim "" (fun p => ":" ++ p))).trim

/-- Modelled from the spec: `validateAction` lives in
`@libs/security/action`, outside `src/`. §4.1/§8: it checks membership of
the composed action string in the principal's granted action set and
throws an authorization-class (403) error otherwise; the extra value
argument the source passes does not change the membership test. -/
def validateAction (action : String) (actions : List String) : Option StatusError :=
  if action ∈ actions then none
  else some { status := 403, title := "Permission Denied",
              message := "You are not allowed to perform this action." }

/-- `BaseChain.visitorVisit(canVisit)`: throws 401 Unauthorized exactly
when `canVisit` is false and the principal is the distinguished visitor
type. -/
def visitorVisit (canVisit : Bool) (userType : UserType) : Option StatusError :=
  if !canVisit && (userType == UserType.visitor) then
    some { status := 401, title := "Unauthorized",
           message := "You need to login to access this service." }
  else none

/-- `BaseChain.checkUser(currentUserType, allowedUsers)`. -/
def checkUser (currentUserType : UserType) (allowedUsers : List UserType) : Option StatusError :=
  if !(allowedUsers.contains currentUserType) then
    some { status := 403, title := "Invalid Account",
           message := "Sorry, your account is not able to perform this action." }
  else none

/-- `BaseChain.checkIfUserIs(users)`. -/
def checkIfUserIs (users : List UserType) (userType : UserType) : Option StatusError :=
  if !(users.contains userType) then
    some { status := 403, title := "Invalid Account",
           message := "Sorry, your account is not able to perform this action." }
  else none

/-- `BaseChain.prePerform`: evaluates the stored `predicate` callback
result, throwing 403 when it settled to `false`. -/
def basePrePerform (callbackResult : Option Bool) (callbackMsg : Option String) : Option StatusError :=
  match callbackResult with
  | none => none
  | some true => none
  | some false =>
    some { status := 403, title := "Predicate Not Succeeded",
           message := callbackMsg.getD
             "You are not allowed to process further, because the provided predicate mismatches." }

/-! ## Denied-key and denied-value scanning (`chain.ts`) -/

/-- The values of a `KeyValue` record: a single denied string or a list of
denied strings per key. -/
inductive KeyValSpec where
  | one (s : String)
  | many (ss : List String)
deriving DecidableEq, Repr

/-- `KeyValue` of `@libs/security/action`: a record of denied key/value
pairs, iterated in declaration order (`Object.keys`). -/
abbrev KeyValue := List (String × KeyValSpec)

/-- The chain state `_checkIfKeysExist` and `_checkIfKeysValueExist` read:
the base action (call-site override first, then the endpoint's), the
operation kind and the principal's granted actions. -/
structure ChainMeta where
  baseAction : Option String
  endpointBaseAction : Option String
  verb : Option String
  actions : List String
deriving DecidableEq, Repr

/-- The composed action for a scanned key, as built inside both scanning
loops: `constructAction(this.baseAction || this.endpoint?.baseAction,
this.prefix, capitalize(key), prefixAction)`. -/
def scanAction (meta : ChainMeta) (key : String) (prefixAction : Option String) : String :=
  constructAction ((jsOrStr meta.baseAction meta.endpointBaseAction).getD "")
    meta.verb (some (capitalize key)) prefixAction

/-- The loop of `BaseChain._checkIfKeysExist`: for each denied key whose
value on `obj` is truthy, delete it (`shouldDelete`) or validate the
composed per-field action, which throws 403 when not granted. -/
def scanKeysLoop (meta : ChainMeta) (prefixAction : Option String) (shouldDelete : Bool) :
    JsonFields → List String → Except StatusError JsonFields
  | o, [] => .ok o
  | o, k :: rest =>
    if jsTruthy ((o.lookup k).getD .undef) then
      if shouldDelete then scanKeysLoop meta prefixAction shouldDelete (o.deleteKey k) rest
      else
        match validateAction (scanAction meta k prefixAction) meta.actions with
        | some e => .error e
        | none => scanKeysLoop meta prefixAction shouldDelete o rest
    else scanKeysLoop meta prefixAction shouldDelete o rest

/-- `BaseChain._checkIfKeysExist(obj, keys, prefixAction, shouldDelete)`;
a missing object or key list returns at once. The returned fields reflect
the in-place deletions. -/
def _checkIfKeysExist (meta : ChainMeta) (obj : Option JsonFields) (keys : Option (List String))
    (prefixAction : Option String) (shouldDelete : Bool) : Except StatusError (Option JsonFields) :=
  match obj, keys with
  | some o, some ks => (scanKeysLoop meta prefixAction shouldDelete o ks).map some
  | o, _ => .ok o

/-- Does `obj[key]` strictly equal the denied value(s) declared for `key`?
(`record[key]` is either one string or a list of strings; `===` against a
string only matches string values.) -/
def deniedValueMatch (v : JsonVal) (spec : KeyValSpec) : Bool :=
  match spec with
  | .one s => v == .str s
  | .many ss => ss.any (fun s => v == .str s)

/-- The loop of `BaseChain._checkIfKeysValueExist`: for each record key
whose value on `obj` is truthy and strictly equals a denied value, delete
it or validate the composed per-field action. -/
def scanKeyValuesLoop (meta : ChainMeta) (prefixAction : Option String) (shouldDelete : Bool) :
    JsonFields → List (String × KeyValSpec) → Except StatusError JsonFields
  | o, [] => .ok o
  | o, (k, spec) :: rest =>
    if jsTruthy ((o.lookup k).getD .undef) then
      if deniedValueMatch ((o.lookup k).getD .undef) spec then
        if shouldDelete then scanKeyValuesLoop meta prefixAction shouldDelete (o.deleteKey k) rest
        else
          match validateAction (scanAction meta k prefixAction) meta.actions with
          | some e => .error e
          | none => scanKeyValuesLoop meta prefixAction shouldDelete o rest
      else scanKeyValuesLoop meta prefixAction shouldDelete o rest
    else scanKeyValuesLoop meta prefixAction shouldDelete o rest

/-- `BaseChain._checkIfKeysValueExist(obj, record, prefixAction, shouldDelete)`. -/
def _checkIfKeysValueExist (meta : ChainMeta) (obj : Option JsonFields) (record : Option KeyValue)
    (prefixAction : Option String) (shouldDelete : Bool) : Except StatusError (Option JsonFields) :=
  match obj, record with
  | some o, some rec => (scanKeyValuesLoop meta prefixAction shouldDelete o rec).map some
  | o, _ => .ok o

/-! ## `DataValidationSchema.ts` — the schema matcher

The schema-validation engine itself (`ajv`) is an external collaborator
(§6 of the design): `compile(schema) -> validate(data) -> bool` with
`validate.errors` populated on failure. The matcher below is therefore
parameterized by an abstract compiler over the opaque schema content
`CoreSchema`; `miniCompile` instantiates it for concrete runs. -/

/-- The opaque constraint content of one schema, as seen by the external
compiler. -/
inductive CoreSchema where
  | anySchema
  | noSchema (tag : String)
  | typeString
  | typeNumber
  | objReqString (key : String)
deriving DecidableEq, Repr

/-- One `anyOf` branch: its optional declared `default`, optional declared
`options`, and its constraint content. -/
structure BranchSchema where
  dflt : Option JsonVal
  opts : Option JsonVal
  core : CoreSchema
deriving DecidableEq, Repr

/-- A schema declaration: an optional `anyOf` list of branches (present
but empty models `anyOf: []`, which is truthy in JavaScript), an optional
`default`, optional `options`, and constraint content for the
single-schema mode. -/
structure SchemaD where
  anyOfBranches : Option (List BranchSchema)
  dflt : Option JsonVal
  opts : Option JsonVal
  core : CoreSchema
deriving DecidableEq, Repr

/-- The type of the external compiler capability: schema content in, a
validator returning success and the engine's error messages on failure. -/
def CompileFn := CoreSchema → JsonVal → Bool × List String

/-- A concrete instance of the external compiler, interpreting
`CoreSchema` (used to run the matcher on concrete inputs). -/
def miniCompile : CompileFn := fun s v =>
  match s with
  | .anySchema => (true, [])
  | .noSchema tag => (false, ["must not match " ++ tag])
  | .typeString =>
    match v with
    | .str _ => (true, [])
    | _ => (false, ["must be string"])
  | .typeNumber =>
    match v with
    | .num _ => (true, [])
    | _ => (false, ["must be number"])
  | .objReqString key =>
    match v with
    | .obj fs =>
      match fs.lookup key with
      | some (.str _) => (true, [])
      | some _ => (false, ["property " ++ key ++ " must be string"])
      | none => (false, ["must have required property " ++ key])
    | _ => (false, ["must be object"])

/-- `excludeFields`: a clone of the validation input with the
non-semantic top-level `sort` and `locale` keys removed. -/
def excludeFields : JsonVal → JsonVal
  | .obj fs => .obj ((fs.deleteKey "sort").deleteKey "locale")
  | v => v

/-- `getDefault(obj, index)`: parallel-array addressing of a fallback —
indexes it when it is an array, returns it unchanged otherwise. -/
def getDefault (obj : Option JsonVal) (index : Nat) : Option JsonVal :=
  match obj with
  | some (.arr xs) => xs.get? index
  | some v => some v
  | none => none

/-- The result record of `validateDataSchema`. -/
structure ValidationResult where
  errors : Option (List String)
  defaultValue : Option JsonVal
  defaultOption : Option JsonVal
  isValid : Bool
deriving DecidableEq, Repr

/-- The `findIndex` pass over the `anyOf` branches: tries branches in
declared order on the (field-excluded) data, keeping the error list of
every failing attempt in turn — so the surviving error list is the last
failing branch's — and stops at the first branch that validates. Returns
the winning index, if any, and the surviving error list. -/
def anyOfScan (compile : CompileFn) (excluded : JsonVal) :
    List BranchSchema → Option (List String) → Nat → Option Nat × Option (List String)
  | [], errAcc, _ => (none, errAcc)
  | b :: rest, errAcc, i =>
    let r := compile b.core excluded
    if r.1 then (some i, errAcc) else anyOfScan compile excluded rest (some r.2) (i + 1)

/-- `validateDataSchema(data, schema, defaultData?, defaultOpt?)`. In
`anyOf` mode the first validating branch wins; its declared
default/options are used when truthy, else the fallback is addressed by
the winning position via `getDefault`. In single-schema mode the schema's
own `default`/`options` override the fallback by nullish coalescing. -/
def validateDataSchema (compile : CompileFn) (data : JsonVal) (schema : SchemaD)
    (defaultData defaultOpt : Option JsonVal) : ValidationResult :=
  match schema.anyOfBranches with
  | some branches =>
    let scan := anyOfScan compile (excludeFields data) branches none 0
    match scan.1 with
    | some i =>
      let b := branches.getD i ⟨none, none, .anySchema⟩
      { errors := scan.2
        defaultValue := if jsTruthyOpt b.dflt then b.dflt else getDefault defaultData i
        defaultOption := if jsTruthyOpt b.opts then b.opts else getDefault defaultOpt i
        isValid := true }
    | none =>
      { errors := scan.2, defaultValue := defaultData, defaultOption := defaultOpt,
        isValid := false }
  | none =>
    let r := compile schema.core (excludeFields data)
    if r.1 then
      { errors := none
        defaultValue := jsCoalesce schema.dflt defaultData
        defaultOption := jsCoalesce schema.opts defaultOpt
        isValid := true }
    else
      { errors := some r.2, defaultValue := defaultData, defaultOption := defaultOpt,
        isValid := false }

/-! ## Endpoint descriptor fragments (`user-level.model`) -/

/-- The `query` policy of an endpoint descriptor (the fields the chains
read). -/
structure EndpointQuery where
  deniedKeys : Option (List String) := none
  deniedKeysValue : Option KeyValue := none
  schemas : Option SchemaD := none
  dflt : Option JsonVal := none
  options : Option JsonVal := none
  errorTitle : Option String := none
  errorMessage : Option String := none
deriving Repr

/-- The `body` policy of an endpoint descriptor (the fields the chains
read). -/
structure EndpointBody where
  deniedKeys : Option (List String) := none
  deniedKeysValue : Option KeyValue := none
  schemas : Option SchemaD := none
  dflt : Option JsonVal := none
  useDefaultSchema : Option Bool := none
deriving Repr

/-! ## Chain `prePerform` stages -/

/-- One guarded denied-keys scan as issued by the `prePerform` bodies:
`if (endpoint...deniedKeys) chain._checkIfKeysExist(obj, keys, undefined,
shouldDelete)` — absent declaration, no scan. -/
def keysStep (meta : ChainMeta) (pa : Option String) (sd : Bool) (o : JsonFields)
    (oks : Option (List String)) : Except StatusError JsonFields :=
  match oks with
  | some ks => scanKeysLoop meta pa sd o ks
  | none => .ok o

/-- One guarded denied-key-values scan, as `keysStep`. -/
def valuesStep (meta : ChainMeta) (pa : Option String) (sd : Bool) (o : JsonFields)
    (orec : Option KeyValue) : Except StatusError JsonFields :=
  match orec with
  | some rec => scanKeyValuesLoop meta pa sd o rec
  | none => .ok o

/-- `ReadChain.prePerform`, denied-key stage (lines 40–43): both scans run
over the filter in deletion mode (`shouldDelete = true`), so stale denied
keys are dropped silently. Returns the filter after the in-place
deletions. -/
def readDeniedScan (meta : ChainMeta) (filter : JsonFields) (eq : Option EndpointQuery) :
    Except StatusError JsonFields :=
  (keysStep meta none true filter (eq.bind (·.deniedKeys))).bind fun f1 =>
  valuesStep meta none true f1 (eq.bind (·.deniedKeysValue))

/-- `UpdateChain.prePerform`, denied-key stage (lines 84–92): the query
scans run over the filter and the body scans over the update, all four in
deletion mode (`shouldDelete = true`). Returns the filter and update
after the in-place deletions. -/
def updateDeniedScan (meta : ChainMeta) (filter update : JsonFields)
    (eq : Option EndpointQuery) (eb : Option EndpointBody) :
    Except StatusError (JsonFields × JsonFields) :=
  (keysStep meta none true filter (eq.bind (·.deniedKeys))).bind fun f1 =>
  (valuesStep meta none true f1 (eq.bind (·.deniedKeysValue))).bind fun f2 =>
  (keysStep meta none true update (eb.bind (·.deniedKeys))).bind fun u1 =>
  (valuesStep meta none true u1 (eb.bind (·.deniedKeysValue))).bind fun u2 =>
  .ok (f2, u2)

/-- `CreateChain.prePerform`, denied-key stage (lines 535–537): both body
scans run over the document in deletion mode (`shouldDelete = true`).
Returns the document after the in-place deletions. -/
def createDeniedScan (meta : ChainMeta) (doc : JsonFields) (eb : Option EndpointBody) :
    Except StatusError JsonFields :=
  (keysStep meta none true doc (eb.bind (·.deniedKeys))).bind fun d1 =>
  valuesStep meta none true d1 (eb.bind (·.deniedKeysValue))

/-- `DeleteChain.prePerform`, denied-key stage (lines 105–107): both scans
run through the public `checkIfKeysExist`/`checkIfKeysValueExist`, which
leave `shouldDelete` at its default `false` — rejection mode: a truthy
denied key leads to a per-field action validation, which throws 403 when
the action is not granted. -/
def deleteDeniedScan (meta : ChainMeta) (filter : JsonFields) (eq : Option EndpointQuery) :
    Except StatusError JsonFields :=
  (keysStep meta none false filter (eq.bind (·.deniedKeys))).bind fun f1 =>
  valuesStep meta none false f1 (eq.bind (·.deniedKeysValue))

/-- The schema stage of `CreateChain.prePerform` (lines 539–565):
`validateDataSchema` against the declared `body.schemas` — a mismatch
throws 403 "Restricted Data" and a match stores the resolved default back
on the endpoint body — else the model entity schema is compiled when
`useDefaultSchema` is unset or `true`. -/
def createSchemaStage (compile : CompileFn) (d : JsonFields) (eb : Option EndpointBody)
    (modelSchema : CoreSchema) : Except StatusError (JsonFields × Option EndpointBody) :=
  match eb.bind (·.schemas) with
  | some sch =>
    let r := validateDataSchema compile (.obj d) sch (eb.bind (·.dflt)) none
    if r.isValid then
      .ok (d, eb.map (fun b => { b with dflt := r.defaultValue }))
    else
      .error { status := 403, title := "Restricted Data",
               message := "The data you provided violates some of our policies. Check it or consulate support.",
               detail := r.errors }
  | none =>
    if (eb.bind (·.useDefaultSchema)) = none ∨ (eb.bind (·.useDefaultSchema)) = some true then
      let r := compile modelSchema (.obj d)
      if r.1 then .ok (d, eb)
      else
        .error { status := 403, title := "Restricted Data",
                 message := "The data you provided violates some of our policies. Check it or consulate support.",
                 detail := some r.2 }
    else .ok (d, eb)

/-- `CreateChain.prePerform` (lines 532–566): predicate check, body scans
in deletion mode, then the schema stage. Returns the scanned document and
the updated endpoint body. -/
def createPrePerform (compile : CompileFn) (meta : ChainMeta)
    (callbackResult : Option Bool) (callbackMsg : Option String)
    (doc : JsonFields) (eb : Option EndpointBody) (modelSchema : CoreSchema) :
    Except StatusError (JsonFields × Option EndpointBody) :=
  match basePrePerform callbackResult callbackMsg with
  | some e => .error e
  | none =>
    (createDeniedScan meta doc eb).bind fun d =>
    createSchemaStage compile d eb modelSchema

/-- The operation descriptor returned by `CreateChain.perform`. -/
structure CreateDescriptor where
  doc : JsonVal
  options : Option JsonVal
  filter : Option JsonVal
deriving DecidableEq, Repr

/-- `CreateChain.perform(options?)` (lines 568–601) for an endpoint
without upload declarations: runs `prePerform` first; only when it
succeeds is the descriptor assembled — `merge({}, doc, body.default || {})`
with the identity sentinel substituted (raw, `stringify = false`),
`options` passed through, and `filter` the endpoint's query default. Any
`prePerform` failure propagates and no descriptor is produced. -/
def createPerform (compile : CompileFn) (meta : ChainMeta)
    (callbackResult : Option Bool) (callbackMsg : Option String)
    (userId : String) (doc : JsonFields) (eb : Option EndpointBody)
    (modelSchema : CoreSchema) (queryDflt : Option JsonVal) (options : Option JsonVal) :
    Except StatusError CreateDescriptor :=
  (createPrePerform compile meta callbackResult callbackMsg doc eb modelSchema).bind fun r =>
  .ok { doc := setCurrentUser userId false
          (jsMerge (jsMerge (.obj .nil) (.obj r.1)) (jsOrVal (r.2.bind (·.dflt)) (.obj .nil))),
        options := options, filter := queryDflt }

/-- The raw-`ajv` filter check of `UpdateChain.prePerform` (lines 94–104):
skipped when no query schema is declared or the filter is empty; a failed
validation throws 403 with the endpoint's declared title/message or
"Restricted Query". -/
def updateQuerySchemaStage (compile : CompileFn) (f : JsonFields) (eq : Option EndpointQuery) :
    Except StatusError Unit :=
  match eq.bind (·.schemas) with
  | some sch =>
    if !(f.isEmptyObj) then
      if (compile sch.core (.obj f)).1 then .ok ()
      else
        .error { status := 403,
                 title := ((eq.bind (·.errorTitle)).getD "Restricted Query"),
                 message := ((eq.bind (·.errorMessage)).getD "The query you provided is not allowed by the system.") }
    else .ok ()
  | none => .ok ()

/-- The raw-`ajv` body check of `UpdateChain.prePerform` (lines 106–117):
as the filter check but on the update, with "Restricted Body" defaults
(still reading the *query* policy's `errorTitle`/`errorMessage`, verbatim
from the source) and the engine's errors attached. -/
def updateBodySchemaStage (compile : CompileFn) (u : JsonFields) (eq : Option EndpointQuery)
    (eb : Option EndpointBody) : Except StatusError Unit :=
  match eb.bind (·.schemas) with
  | some sch =>
    if !(u.isEmptyObj) then
      if (compile sch.core (.obj u)).1 then .ok ()
      else
        .error { status := 403,
                 title := ((eq.bind (·.errorTitle)).getD "Restricted Body"),
                 message := ((eq.bind (·.errorMessage)).getD "The body you provided is not allowed by the system."),
                 detail := some (compile sch.core (.obj u)).2 }
    else .ok ()
  | none => .ok ()

/-- `UpdateChain.prePerform` (lines 81–118): predicate check, the four
deletion-mode scans, then the raw `ajv` checks of filter and update. -/
def updatePrePerform (compile : CompileFn) (meta : ChainMeta)
    (callbackResult : Option Bool) (callbackMsg : Option String)
    (filter update : JsonFields) (eq : Option EndpointQuery) (eb : Option EndpointBody) :
    Except StatusError (JsonFields × JsonFields) :=
  match basePrePerform callbackResult callbackMsg with
  | some e => .error e
  | none =>
    (updateDeniedScan meta filter update eq eb).bind fun fu =>
    (updateQuerySchemaStage compile fu.1 eq).bind fun _ =>
    (updateBodySchemaStage compile fu.2 eq eb).bind fun _ =>
    .ok fu

/-- `ReadChain.prePerform`, schema stage (lines 46–64): validates the
filter through the matcher (with the query's declared default and options
as fallbacks), throws 403 "Restricted Query" on mismatch — appending the
last error message when the engine produced any — and stores the resolved
default and options back on the endpoint. (The sentinel substitution the
source applies to the schema object before compiling is the identity on
sentinel-free schemas and does not affect the opaque schema content.)
Returns the resolved default and options. -/
def readSchemaCheck (compile : CompileFn) (filter : JsonFields) (eq : Option EndpointQuery) :
    Except StatusError (Option JsonVal × Option JsonVal) :=
  match eq.bind (·.schemas) with
  | some sch =>
    let r := validateDataSchema compile (.obj filter) sch (eq.bind (·.dflt)) (eq.bind (·.options))
    if r.isValid then .ok (r.defaultValue, r.defaultOption)
    else
      .error { status := 403, title := "Restricted Query",
               message :=
                 match r.errors with
                 | some es => "The query you provided is not allowed by the system. Your query "
                     ++ (es.getLast?.getD "undefined")
                 | none => "The query you provided is not allowed by the system.",
               detail := r.errors }
  | none => .ok (eq.bind (·.dflt), eq.bind (·.options))

/-- The schema stage of `DeleteChain.prePerform` (lines 109–120): the
matcher against `query.schemas`, 403 "Restricted Query" on mismatch. -/
def deleteSchemaStage (compile : CompileFn) (f : JsonFields) (eq : Option EndpointQuery) :
    Except StatusError (JsonFields × Option JsonVal) :=
  match eq.bind (·.schemas) with
  | some sch =>
    let r := validateDataSchema compile (.obj f) sch (eq.bind (·.dflt)) none
    if r.isValid then .ok (f, r.defaultValue)
    else
      .error { status := 403, title := "Restricted Query",
               message := "The query you provided is not allowed by the system.",
               detail := r.errors }
  | none => .ok (f, eq.bind (·.dflt))

/-- `DeleteChain.prePerform` (lines 102–121): predicate check,
rejection-mode scans, then the schema stage. -/
def deletePrePerform (compile : CompileFn) (meta : ChainMeta)
    (callbackResult : Option Bool) (callbackMsg : Option String)
    (filter : JsonFields) (eq : Option EndpointQuery) :
    Except StatusError (JsonFields × Option JsonVal) :=
  match basePrePerform callbackResult callbackMsg with
  | some e => .error e
  | none =>
    (deleteDeniedScan meta filter eq).bind fun f =>
    deleteSchemaStage compile f eq


/-! ## Specification-side helpers and concrete scenario inputs -/

/-- Specification-side description of deletion-mode scanning: delete, in
order, every denied key whose current value is truthy. -/
def deleteTruthyKeys : JsonFields → List String → JsonFields
  | o, [] => o
  | o, k :: rest =>
    if jsTruthy ((o.lookup k).getD .undef) then deleteTruthyKeys (o.deleteKey k) rest
    else deleteTruthyKeys o rest

/-- The request instants of the C1 scenario: ten requests, one second
apart, all inside the 10-second window opened at `t = 0`. -/
def c1Times : List JsNum := [0, 1000, 2000, 3000, 4000, 5000, 6000, 7000, 8000, 9000]

/-- The cache state after the first `k` requests of the C1 scenario
(window 10 s, max 3, path `"p"`, address `"a"`). -/
def c1After (k : Nat) : Cache := (rlRun "p" "a" 10 3 (c1Times.take k) Cache.empty).1

/-- A chain state with an empty granted-action set: rejection-mode
scanning would necessarily throw on any scanned key. -/
def c2Meta : ChainMeta :=
  { baseAction := some "User", endpointBaseAction := none, verb := some "Create", actions := [] }

/-- An endpoint body policy denying the key `"role"`. -/
def c2Body : EndpointBody := { deniedKeys := some ["role"] }

/-- An endpoint query policy denying the key `"role"`. -/
def c2Query : EndpointQuery := { deniedKeys := some ["role"] }

/-- A request body carrying the denied key `"role"` with a truthy value. -/
def c2Doc : JsonFields := .cons "role" (.str "admin") .nil

/-- An always-validating `anyOf` branch that declares the falsy default
`0`. -/
def c3Branch : BranchSchema := { dflt := some (.num 0), opts := none, core := .anySchema }

/-- A schema whose `anyOf` holds the single branch `c3Branch`. -/
def c3Schema : SchemaD :=
  { anyOfBranches := some [c3Branch], dflt := none, opts := none, core := .anySchema }

/-- A two-branch `anyOf` schema whose branches both reject everything,
with distinguishable error messages. -/
def c4Schema : SchemaD :=
  { anyOfBranches := some
      [ { dflt := none, opts := none, core := .noSchema "SchemaA" },
        { dflt := none, opts := none, core := .noSchema "SchemaB" } ],
    dflt := none, opts := none, core := .anySchema }

/-- The endpoint body of the C6 scenario: `body.schemas` requires an
object whose `name` property is a string. -/
def c6Body : EndpointBody :=
  { schemas := some { anyOfBranches := none, dflt := none, opts := none,
                      core := .objReqString "name" } }

/-- The C6 request document `{name: 123}`. -/
def c6Doc : JsonFields := .cons "name" (.num 123) .nil

/-- An object on which every scanned key is falsy: `role` is `0`,
`flag` is `false`, `note` is the empty string, `gone` is `null` and
`ghost` is `undefined`. -/
def c9Obj : JsonFields :=
  .cons "role" (.num 0) (.cons "flag" (.boolV false) (.cons "note" (.str "")
    (.cons "gone" .nullV (.cons "ghost" .undef .nil))))

/-- The denied keys scanned over `c9Obj`. -/
def c9Keys : List String := ["role", "flag", "note", "gone", "ghost", "absent"]

/-- The denied key/value record scanned over `c9Obj`. -/
def c9Record : KeyValue :=
  [("role", .one "0"), ("flag", .many ["false", "x"]), ("note", .one ""),
   ("gone", .one "gone"), ("ghost", .many []), ("absent", .one "y")]

deriving instance DecidableEq for Except

/-! ## Helper lemmas -/

theorem JsNum.add_num (a b : JsNum) : (a + b).num = a.num * (b.den : Int) + b.num * (a.den : Int) := rfl

theorem JsNum.add_den (a b : JsNum) : (a + b).den = a.den * b.den := rfl

theorem JsNum.sub_num (a b : JsNum) : (a - b).num = a.num * (b.den : Int) - b.num * (a.den : Int) := rfl

theorem JsNum.sub_den (a b : JsNum) : (a - b).den = a.den * b.den := rfl

theorem JsNum.mul_num (a b : JsNum) : (a * b).num = a.num * b.num := rfl

theorem JsNum.mul_den (a b : JsNum) : (a * b).den = a.den * b.den := rfl

theorem JsNum.thousand_num : (1000 : JsNum).num = 1000 := rfl

theorem JsNum.thousand_den : (1000 : JsNum).den = 1 := rfl

theorem JsNum.div_thousand (a : JsNum) : a / 1000 = ⟨a.num, a.den * 1000⟩ := by
  show (if 0 ≤ (1000 : JsNum).num then _ else _) = _
  rw [if_pos (by decide)]
  show JsNum.mk (a.num * ((1 : Nat) : Int)) (a.den * (1000 : Int).natAbs) = _
  norm_num

/-- A successful live lookup certifies the entry had not expired. -/
theorem Cache.findLive_le {c : Cache} {now : JsNum} {k : String} {v : CacheVal} {t : JsNum}
    (h : c.findLive now k = some (v, t)) : now.le t = true := by
  unfold Cache.findLive at h
  rcases hf : c.entries.find? (fun e => e.1 == k) with _ | ⟨k', v', t'⟩
  · rw [hf] at h; exact absurd h (by simp)
  · rw [hf] at h
    by_cases hle : now.le t'
    · simp [hle] at h; rw [← h.2]; exact hle
    · simp [hle] at h

/-! ## C1, C5, C10 — the rate limiter -/

/-- C1: with window `w = 10` s and max `m = 3` on the fixed key
`"p-a"`, requests 1–3 are allowed; request 4 is denied with the 429 error
and creates the penalty entry `{escalation := 1, remaining := 2*3-1 = 5}`;
requests 5–9 are denied, each decrementing `remaining` (5→4→3→2→1→0)
while `escalation` stays 1; the next denial (request 10, at `t = 9000` ms)
raises `escalation` to 2, resets `remaining` to 5, and re-sets the primary
counter with expiry `29000` ms — i.e. a window of `20000` ms `= w * 2`
from the request instant. -/
theorem rateLimit_escalation_scenario :
    (rlRun "p" "a" 10 3 c1Times Cache.empty).2 =
      [none, none, none, some tooManyRequestsError, some tooManyRequestsError,
       some tooManyRequestsError, some tooManyRequestsError, some tooManyRequestsError,
       some tooManyRequestsError, some tooManyRequestsError]
    ∧ tooManyRequestsError.status = 429
    ∧ (c1After 4).findLive 3000 "p-a-retry" = some (.retryVal ⟨5, 1⟩, 13000)
    ∧ (c1After 5).findLive 4000 "p-a-retry" = some (.retryVal ⟨4, 1⟩, 14000)
    ∧ (c1After 6).findLive 5000 "p-a-retry" = some (.retryVal ⟨3, 1⟩, 15000)
    ∧ (c1After 7).findLive 6000 "p-a-retry" = some (.retryVal ⟨2, 1⟩, 16000)
    ∧ (c1After 8).findLive 7000 "p-a-retry" = some (.retryVal ⟨1, 1⟩, 17000)
    ∧ (c1After 9).findLive 8000 "p-a-retry" = some (.retryVal ⟨0, 1⟩, 18000)
    ∧ (c1After 10).findLive 9000 "p-a-retry" = some (.retryVal ⟨5, 2⟩, 19000)
    ∧ (c1After 10).findLive 9000 "p-a" = some (.num 0, 29000) := by
  decide

/-- C5: a rate-limit check that finds a live counter entry with a
positive value allows the request, decrements the counter by one, and
re-sets it with the *original* entry's absolute expiry time — the window
boundary is preserved, never reset to the full window length. -/
theorem rateLimit_decrement_preserves_window (path address : String) (windows : JsNum)
    (max : Int) (now : JsNum) (c : Cache) (count : Int) (exp : JsNum)
    (hfind : c.findLive now (path ++ "-" ++ address) = some (.num count, exp))
    (hpos : 0 < count) :
    (checkRateLimit path address windows max now c).2 = none
    ∧ ∃ t, (checkRateLimit path address windows max now c).1.findLive now (path ++ "-" ++ address)
        = some (.num (count - 1), t) ∧ t.eqv exp := by
  have hle := Cache.findLive_le hfind
  have hle' : now.num * (exp.den : Int) ≤ exp.num * (now.den : Int) := by
    simpa [JsNum.le] using hle
  have hz : CacheVal.jsEqZero (.num count) = false := by
    simp [CacheVal.jsEqZero]; omega
  have hle2 : now.le (now + ((exp - now) / 1000) * 1000) = true := by
    simp only [JsNum.le, JsNum.div_thousand, JsNum.add_num, JsNum.add_den, JsNum.sub_num,
      JsNum.sub_den, JsNum.mul_num, JsNum.mul_den, JsNum.thousand_num, JsNum.thousand_den,
      decide_eq_true_eq]
    push_cast
    nlinarith [hle', Int.natCast_nonneg now.den, Int.natCast_nonneg exp.den,
      mul_nonneg (Int.natCast_nonneg now.den) (Int.natCast_nonneg now.den)]
  simp only [checkRateLimit, hfind, hz, Bool.false_eq_true, if_false]
  refine ⟨trivial, ⟨now + ((exp - now) / 1000) * 1000, ?_, ?_⟩⟩
  · unfold Cache.setVal Cache.findLive
    rw [List.find?_cons_of_pos _ (by simp)]
    simp only [hle2, if_true, CacheVal.jsDec]
  · simp only [JsNum.eqv, JsNum.div_thousand, JsNum.add_num, JsNum.add_den, JsNum.sub_num,
      JsNum.sub_den, JsNum.mul_num, JsNum.mul_den, JsNum.thousand_num, JsNum.thousand_den]
    push_cast
    ring

/-- Witness for C5: a concrete live counter of value 2 expiring at
`t = 10000` ms, checked at `t = 1000` ms, is decremented to 1 with expiry
still equivalent to 10000. -/
theorem rateLimit_decrement_preserves_window_witness :
    (checkRateLimit "p" "a" 10 3 1000 ⟨[("p-a", CacheVal.num 2, 10000)]⟩).2 = none
    ∧ ∃ t, (checkRateLimit "p" "a" 10 3 1000 ⟨[("p-a", CacheVal.num 2, 10000)]⟩).1.findLive
        1000 ("p" ++ "-" ++ "a") = some (.num 1, t) ∧ t.eqv 10000 := by
  have h := rateLimit_decrement_preserves_window "p" "a" 10 3 1000
    ⟨[("p-a", CacheVal.num 2, 10000)]⟩ 2 10000 (by decide) (by decide)
  exact ⟨h.1, h.2⟩

/-- C10: a chain constructed without a client address or without a shared
cache performs no rate limiting at all — `checkRateLimit` returns at once
with the cache untouched and no denial, whatever the endpoint's declared
rate-limit policy says. -/
theorem rateLimit_disabled_without_address_or_cache (path : String) (address : Option String)
    (windows : JsNum) (max : Int) (now : JsNum) (c : Option Cache)
    (h : address = none ∨ c = none) :
    checkRateLimitOpt path address windows max now c = (c, none) := by
  cases address with
  | none => cases c <;> rfl
  | some a =>
    cases c with
    | none => rfl
    | some cc => rcases h with h | h <;> exact absurd h (by simp)

/-- Witness for C10: a chain with a client address but no cache skips the
check. -/
theorem rateLimit_disabled_without_address_or_cache_witness :
    checkRateLimitOpt "p" (some "a") 10 3 0 none = (none, none) :=
  rateLimit_disabled_without_address_or_cache "p" (some "a") 10 3 0 none (Or.inr rfl)

/-! ## C7 — sentinel substitution (`BaseChain.setCurrentUser`) -/

mutual
theorem setCurrentUser_noop (uid : String) (st : Bool) :
    ∀ v : JsonVal, hasSentinel v = false → setCurrentUser uid st v = v
  | .str s, h => by
    simp only [hasSentinel, beq_eq_false_iff_ne, ne_eq] at h
    simp [setCurrentUser, h]
  | .num _, _ => rfl
  | .boolV _, _ => rfl
  | .nullV, _ => rfl
  | .undef, _ => rfl
  | .oid _, _ => rfl
  | .arr xs, h => by
    simp only [hasSentinel] at h
    simp [setCurrentUser, setCurrentUserList_noop uid st xs h]
  | .obj fs, h => by
    simp only [hasSentinel] at h
    simp [setCurrentUser, setCurrentUserFields_noop uid st fs h]

theorem setCurrentUserList_noop (uid : String) (st : Bool) :
    ∀ xs : JsonList, hasSentinelList xs = false → setCurrentUserList uid st xs = xs
  | .nil, _ => rfl
  | .cons x xs, h => by
    simp only [hasSentinelList, Bool.or_eq_false_iff] at h
    simp [setCurrentUserList, setCurrentUser_noop uid st x h.1, setCurrentUserList_noop uid st xs h.2]

theorem setCurrentUserFields_noop (uid : String) (st : Bool) :
    ∀ fs : JsonFields, hasSentinelFields fs = false → setCurrentUserFields uid st fs = fs
  | .nil, _ => rfl
  | .cons k v fs, h => by
    simp only [hasSentinelFields, Bool.or_eq_false_iff] at h
    simp [setCurrentUserFields, setCurrentUser_noop uid st v h.1, setCurrentUserFields_noop uid st fs h.2]
end

mutual
theorem setCurrentUser_clean (uid : String) (st : Bool) (h : uid ≠ "*current_user*") :
    ∀ v : JsonVal, hasSentinel (setCurrentUser uid st v) = false
  | .str s => by
    by_cases hs : s = "*current_user*"
    · subst hs
      cases st <;> simp [setCurrentUser, hasSentinel, h]
    · simp [setCurrentUser, hs, hasSentinel]
  | .num _ => rfl
  | .boolV _ => rfl
  | .nullV => rfl
  | .undef => rfl
  | .oid _ => rfl
  | .arr xs => by
    simp [setCurrentUser, hasSentinel, setCurrentUserList_clean uid st h xs]
  | .obj fs => by
    simp [setCurrentUser, hasSentinel, setCurrentUserFields_clean uid st h fs]

theorem setCurrentUserList_clean (uid : String) (st : Bool) (h : uid ≠ "*current_user*") :
    ∀ xs : JsonList, hasSentinelList (setCurrentUserList uid st xs) = false
  | .nil => rfl
  | .cons x xs => by
    simp [setCurrentUserList, hasSentinelList, setCurrentUser_clean uid st h x,
      setCurrentUserList_clean uid st h xs]

theorem setCurrentUserFields_clean (uid : String) (st : Bool) (h : uid ≠ "*current_user*") :
    ∀ fs : JsonFields, hasSentinelFields (setCurrentUserFields uid st fs) = false
  | .nil => rfl
  | .cons k v fs => by
    simp [setCurrentUserFields, hasSentinelFields, setCurrentUser_clean uid st h v,
      setCurrentUserFields_clean uid st h fs]
end

/-- C7: `setCurrentUser` is a pure deep copy (the embedding of
`cloneDeepWith`; the input value is never modified — the function returns
a freshly built value). On a sentinel-free input the copy equals the
input; after substitution no sentinel scalar remains (every occurrence was
replaced by the principal's identity — as a plain string when `stringify`
is set, as the raw `ObjectId` otherwise); on the spec's example
`{owner: "*current_user*"}` it produces `{owner: <id>}` in both modes. -/
theorem setCurrentUser_substitution (uid : String) (st : Bool) (h : uid ≠ "*current_user*") :
    (∀ v, hasSentinel v = false → setCurrentUser uid st v = v)
    ∧ (∀ v, hasSentinel (setCurrentUser uid st v) = false)
    ∧ setCurrentUser uid true (.obj (.cons "owner" (.str "*current_user*") .nil))
        = .obj (.cons "owner" (.str uid) .nil)
    ∧ setCurrentUser uid false (.obj (.cons "owner" (.str "*current_user*") .nil))
        = .obj (.cons "owner" (.oid uid) .nil) := by
  refine ⟨setCurrentUser_noop uid st, setCurrentUser_clean uid st h, ?_, ?_⟩ <;>
    simp [setCurrentUser, setCurrentUserFields]

/-- Witness for C7 at the identity `"u1"`. -/
theorem setCurrentUser_substitution_witness :
    setCurrentUser "u1" true (.obj (.cons "owner" (.str "*current_user*") .nil))
      = .obj (.cons "owner" (.str "u1") .nil)
    ∧ setCurrentUser "u1" false (.obj (.cons "owner" (.str "*current_user*") .nil))
      = .obj (.cons "owner" (.oid "u1") .nil)
    ∧ setCurrentUser "u1" true (.str "hello") = .str "hello" :=
  ⟨(setCurrentUser_substitution "u1" true (by decide)).2.2.1,
   (setCurrentUser_substitution "u1" true (by decide)).2.2.2,
   (setCurrentUser_substitution "u1" true (by decide)).1 _ (by decide)⟩

/-! ## C9 — scanning reacts only to truthy values -/

theorem scanKeysLoop_falsy (meta : ChainMeta) (pa : Option String) (sd : Bool) :
    ∀ (o : JsonFields) (ks : List String),
      (∀ k ∈ ks, jsTruthy ((o.lookup k).getD .undef) = false) →
      scanKeysLoop meta pa sd o ks = .ok o
  | o, [], _ => rfl
  | o, k :: rest, h => by
    have hk := h k (by simp)
    simp only [scanKeysLoop, hk, Bool.false_eq_true, if_false]
    exact scanKeysLoop_falsy meta pa sd o rest (fun k' hk' => h k' (by simp [hk']))

theorem scanKeyValuesLoop_falsy (meta : ChainMeta) (pa : Option String) (sd : Bool) :
    ∀ (o : JsonFields) (rec : List (String × KeyValSpec)),
      (∀ p ∈ rec, jsTruthy ((o.lookup p.1).getD .undef) = false) →
      scanKeyValuesLoop meta pa sd o rec = .ok o
  | o, [], _ => rfl
  | o, (k, spec) :: rest, h => by
    have hk := h (k, spec) (by simp)
    simp only [scanKeyValuesLoop, hk, Bool.false_eq_true, if_false]
    exact scanKeyValuesLoop_falsy meta pa sd o rest (fun p hp => h p (by simp [hp]))

/-- C9: both scanning primitives only react to keys whose value is
truthy. Whenever every scanned key is absent from the object or maps to a
falsy value (`undefined`, `null`, `0`, the empty string, `false`), the
scan succeeds with the object unchanged, in deletion mode and rejection
mode alike — nothing is removed and nothing is thrown. -/
theorem scan_ignores_falsy_values (meta : ChainMeta) (pa : Option String) (sd : Bool)
    (o : JsonFields) (ks : List String) (record : KeyValue)
    (hks : ∀ k ∈ ks, jsTruthy ((o.lookup k).getD .undef) = false)
    (hrec : ∀ p ∈ record, jsTruthy ((o.lookup p.1).getD .undef) = false) :
    _checkIfKeysExist meta (some o) (some ks) pa sd = .ok (some o)
    ∧ _checkIfKeysValueExist meta (some o) (some record) pa sd = .ok (some o) := by
  constructor
  · show (scanKeysLoop meta pa sd o ks).map some = _
    rw [scanKeysLoop_falsy meta pa sd o ks hks]; rfl
  · show (scanKeyValuesLoop meta pa sd o record).map some = _
    rw [scanKeyValuesLoop_falsy meta pa sd o record hrec]; rfl

/-- Witness for C9: an object whose scanned keys hold `0`, `false`, `""`,
`null` and `undefined` (plus one absent key) passes through unchanged in
both modes. -/
theorem scan_ignores_falsy_values_witness :
    _checkIfKeysExist c2Meta (some c9Obj) (some c9Keys) none false = .ok (some c9Obj)
    ∧ _checkIfKeysValueExist c2Meta (some c9Obj) (some c9Record) none true = .ok (some c9Obj) :=
  ⟨(scan_ignores_falsy_values c2Meta none false c9Obj c9Keys c9Record (by decide) (by decide)).1,
   (scan_ignores_falsy_values c2Meta none true c9Obj c9Keys c9Record (by decide) (by decide)).2⟩

/-! ## C2 — scanning modes of the four chains -/

theorem scanKeysLoop_deletes (meta : ChainMeta) (pa : Option String) :
    ∀ (o : JsonFields) (ks : List String),
      scanKeysLoop meta pa true o ks = .ok (deleteTruthyKeys o ks)
  | _, [] => rfl
  | o, k :: rest => by
    by_cases hk : jsTruthy ((o.lookup k).getD .undef) = true
    · simp only [scanKeysLoop, deleteTruthyKeys, hk, if_true]
      exact scanKeysLoop_deletes meta pa (o.deleteKey k) rest
    · simp only [scanKeysLoop, deleteTruthyKeys, hk, Bool.false_eq_true, if_false]
      exact scanKeysLoop_deletes meta pa o rest

/-- Counterexample to C2 as stated: during `prePerform` the Create and
Update chains pass `shouldDelete = true` for the body scans too. On a
body `{role: "admin"}` with denied key `"role"` and an *empty* granted
action set (so rejection mode would necessarily have thrown), both scans
succeed — no 403 — and the denied key is silently removed, so the object
is not left untouched. -/
theorem create_update_denied_scan_counterexample :
    createDeniedScan c2Meta c2Doc (some c2Body) = .ok JsonFields.nil
    ∧ updateDeniedScan c2Meta JsonFields.nil c2Doc none (some c2Body)
        = .ok (JsonFields.nil, JsonFields.nil)
    ∧ JsonFields.nil ≠ c2Doc
    ∧ c2Meta.actions = [] := by decide

/-- C2 (amended): during `prePerform`, denied-key scanning runs in
deletion mode for the Read chain *and also* for the Create and Update
chains — a truthy denied key in the filter (Read, Update) or body
(Create, Update) is silently removed and no error is thrown. Rejection
mode (a 403 when the composed per-field action is not granted) occurs in
the Delete chain's `prePerform`, whose scans leave `shouldDelete` at its
default `false`. -/
theorem denied_scan_modes (meta : ChainMeta) (o f u : JsonFields) (ks : List String) :
    readDeniedScan meta o (some { deniedKeys := some ks }) = .ok (deleteTruthyKeys o ks)
    ∧ createDeniedScan meta o (some { deniedKeys := some ks }) = .ok (deleteTruthyKeys o ks)
    ∧ updateDeniedScan meta f u (some { deniedKeys := some ks }) (some { deniedKeys := some ks })
        = .ok (deleteTruthyKeys f ks, deleteTruthyKeys u ks)
    ∧ (∀ k, jsTruthy ((o.lookup k).getD .undef) = true →
        scanAction meta k none ∉ meta.actions →
        deleteDeniedScan meta o (some { deniedKeys := some [k] }) =
          .error { status := 403, title := "Permission Denied",
                   message := "You are not allowed to perform this action." }) := by
  refine ⟨?_, ?_, ?_, ?_⟩
  · simp [readDeniedScan, keysStep, valuesStep, scanKeysLoop_deletes, Except.bind]
  · simp [createDeniedScan, keysStep, valuesStep, scanKeysLoop_deletes, Except.bind]
  · simp [updateDeniedScan, keysStep, valuesStep, scanKeysLoop_deletes, Except.bind]
  · intro k hk hgrant
    simp [deleteDeniedScan, keysStep, valuesStep, scanKeysLoop, hk, validateAction, hgrant,
      Except.bind]

/-- Witness for the amended C2: on `{role: "admin"}` with denied key
`"role"` and no granted actions, the Read-style deletion scan strips the
key silently while the Delete chain's rejection scan throws 403. -/
theorem denied_scan_modes_witness :
    readDeniedScan c2Meta c2Doc (some { deniedKeys := some ["role"] }) = .ok JsonFields.nil
    ∧ deleteDeniedScan c2Meta c2Doc (some { deniedKeys := some ["role"] }) =
        .error { status := 403, title := "Permission Denied",
                 message := "You are not allowed to perform this action." } :=
  ⟨((denied_scan_modes c2Meta c2Doc .nil .nil ["role"]).1).trans (by decide),
   (denied_scan_modes c2Meta c2Doc .nil .nil ["role"]).2.2.2 "role" (by decide) (by decide)⟩

/-! ## C3, C4 — multi-branch (`anyOf`) schema matching -/

theorem anyOfScan_first_match (compile : CompileFn) (ex : JsonVal) :
    ∀ (branches : List BranchSchema) (i : Nat) (b : BranchSchema)
      (errAcc : Option (List String)) (start : Nat),
      branches.get? i = some b →
      (compile b.core ex).1 = true →
      (∀ j, j < i → ∀ bj, branches.get? j = some bj → (compile bj.core ex).1 = false) →
      (anyOfScan compile ex branches errAcc start).1 = some (start + i)
  | [], i, b, _, _, hget, _, _ => by simp at hget
  | b0 :: rest, 0, b, errAcc, start, hget, hwin, _ => by
    simp at hget; subst hget
    simp [anyOfScan, hwin]
  | b0 :: rest, i + 1, b, errAcc, start, hget, hwin, hbefore => by
    have h0 : (compile b0.core ex).1 = false := hbefore 0 (by omega) b0 rfl
    simp only [List.get?_cons_succ] at hget
    have ih := anyOfScan_first_match compile ex rest i b (some (compile b0.core ex).2) (start + 1)
      hget hwin (fun j hj bj hbj => hbefore (j + 1) (by omega) bj (by simpa using hbj))
    simp only [anyOfScan, h0, Bool.false_eq_true, if_false, ih]
    congr 1
    omega

theorem anyOfScan_all_fail (compile : CompileFn) (ex : JsonVal) :
    ∀ (branches : List BranchSchema) (errAcc : Option (List String)) (start : Nat)
      (bLast : BranchSchema),
      branches.getLast? = some bLast →
      (∀ b ∈ branches, (compile b.core ex).1 = false) →
      anyOfScan compile ex branches errAcc start = (none, some (compile bLast.core ex).2)
  | [], _, _, _, hlast, _ => by simp at hlast
  | [b0], errAcc, start, bLast, hlast, hfail => by
    have hb : b0 = bLast := by simpa using hlast
    subst hb
    have h0 := hfail b0 (by simp)
    simp [anyOfScan, h0]
  | b0 :: b1 :: rest, errAcc, start, bLast, hlast, hfail => by
    have h0 := hfail b0 (by simp)
    have hlast' : (b1 :: rest).getLast? = some bLast := by
      rwa [List.getLast?_cons_cons] at hlast
    simp only [anyOfScan, h0, Bool.false_eq_true, if_false]
    exact anyOfScan_all_fail compile ex (b1 :: rest) (some (compile b0.core ex).2) (start + 1)
      bLast hlast' (fun b hb => hfail b (by simp at hb ⊢; tauto))

/-- Counterexample to C3 as stated: a winning branch's *declared* default
is not always used — the branch selector tests JavaScript truthiness, not
presence. Here the single (always-matching) branch declares the falsy
default `0`, yet the result carries the scalar fallback `"fb"` instead of
the branch's own declared default. -/
theorem anyOf_falsy_branch_default_counterexample :
    (validateDataSchema miniCompile (.str "x") c3Schema (some (.str "fb")) none).isValid = true
    ∧ c3Branch.dflt = some (.num 0)
    ∧ (validateDataSchema miniCompile (.str "x") c3Schema (some (.str "fb")) none).defaultValue
        = some (.str "fb")
    ∧ (validateDataSchema miniCompile (.str "x") c3Schema (some (.str "fb")) none).defaultValue
        ≠ c3Branch.dflt := by decide

/-- C3 (amended): branches are tried in declared order and the first
branch that validates wins — any branch strictly before the winner fails,
and ties are resolved by declaration order with no scoring. The winning
branch's own declared default/options are used when they are declared
*with a truthy value*; otherwise (absent **or falsy**) the fallback
default/options are used, indexed by the winning branch's position when
the fallback is itself a sequence (`getDefault`), else the scalar
fallback unchanged. Holds for every compiler capability `compile`. -/
theorem anyOf_first_match_selection (compile : CompileFn) (data : JsonVal) (sch : SchemaD)
    (branches : List BranchSchema) (i : Nat) (b : BranchSchema) (dflt opts : Option JsonVal)
    (hany : sch.anyOfBranches = some branches)
    (hget : branches.get? i = some b)
    (hwin : (compile b.core (excludeFields data)).1 = true)
    (hbefore : ∀ j, j < i → ∀ bj, branches.get? j = some bj →
      (compile bj.core (excludeFields data)).1 = false) :
    (validateDataSchema compile data sch dflt opts).isValid = true
    ∧ (validateDataSchema compile data sch dflt opts).defaultValue
        = (if jsTruthyOpt b.dflt then b.dflt else getDefault dflt i)
    ∧ (validateDataSchema compile data sch dflt opts).defaultOption
        = (if jsTruthyOpt b.opts then b.opts else getDefault opts i) := by
  have hscan := anyOfScan_first_match compile (excludeFields data) branches i b none 0 hget hwin hbefore
  have hgetD : branches[i]?.getD (⟨none, none, .anySchema⟩ : BranchSchema) = b := by
    rw [← List.get?_eq_getElem?, hget]; rfl
  simp [validateDataSchema, hany, hscan, hgetD]

/-- Witness for the amended C3: data `7` skips the string branch, wins at
the number branch (position 1) whose declared truthy default `"bdef"` is
used, while the absent branch options fall back to the array fallback's
position 1 — here `none` since no options fallback is supplied. -/
theorem anyOf_first_match_selection_witness :
    (validateDataSchema miniCompile (.num 7)
        ⟨some [⟨none, none, .typeString⟩, ⟨some (.str "bdef"), none, .typeNumber⟩,
               ⟨none, none, .anySchema⟩], none, none, .anySchema⟩
        (some (.arr (.cons (.str "f0") (.cons (.str "f1") (.cons (.str "f2") .nil))))) none).isValid = true
    ∧ (validateDataSchema miniCompile (.num 7)
        ⟨some [⟨none, none, .typeString⟩, ⟨some (.str "bdef"), none, .typeNumber⟩,
               ⟨none, none, .anySchema⟩], none, none, .anySchema⟩
        (some (.arr (.cons (.str "f0") (.cons (.str "f1") (.cons (.str "f2") .nil))))) none).defaultValue
      = some (.str "bdef")
    ∧ (validateDataSchema miniCompile (.num 7)
        ⟨some [⟨none, none, .typeString⟩, ⟨some (.str "bdef"), none, .typeNumber⟩,
               ⟨none, none, .anySchema⟩], none, none, .anySchema⟩
        (some (.arr (.cons (.str "f0") (.cons (.str "f1") (.cons (.str "f2") .nil))))) none).defaultOption
      = none := by
  have h := anyOf_first_match_selection miniCompile (.num 7)
    ⟨some [⟨none, none, .typeString⟩, ⟨some (.str "bdef"), none, .typeNumber⟩,
           ⟨none, none, .anySchema⟩], none, none, .anySchema⟩
    [⟨none, none, .typeString⟩, ⟨some (.str "bdef"), none, .typeNumber⟩, ⟨none, none, .anySchema⟩]
    1 ⟨some (.str "bdef"), none, .typeNumber⟩
    (some (.arr (.cons (.str "f0") (.cons (.str "f1") (.cons (.str "f2") .nil))))) none
    rfl (by decide) (by decide) (by decide)
  exact ⟨h.1, h.2.1.trans (by decide), h.2.2.trans (by decide)⟩

/-- C4: when no `anyOf` branch validates, the matcher reports
`isValid = false` and its `errors` field holds exactly the error list of
the *last attempted* branch — each failing attempt overwrote the previous
one, so all earlier branches' errors are discarded. Holds for every
compiler capability `compile`. -/
theorem anyOf_no_match_last_errors (compile : CompileFn) (data : JsonVal) (sch : SchemaD)
    (branches : List BranchSchema) (dflt opts : Option JsonVal) (bLast : BranchSchema)
    (hany : sch.anyOfBranches = some branches)
    (hlast : branches.getLast? = some bLast)
    (hfail : ∀ b ∈ branches, (compile b.core (excludeFields data)).1 = false) :
    (validateDataSchema compile data sch dflt opts).isValid = false
    ∧ (validateDataSchema compile data sch dflt opts).errors
        = some (compile bLast.core (excludeFields data)).2 := by
  have hscan := anyOfScan_all_fail compile (excludeFields data) branches none 0 bLast hlast hfail
  simp [validateDataSchema, hany, hscan]

/-- Witness for C4: data matching neither `SchemaA` nor `SchemaB` yields
only `SchemaB`'s error. -/
theorem anyOf_no_match_last_errors_witness :
    (validateDataSchema miniCompile (.num 7) c4Schema none none).isValid = false
    ∧ (validateDataSchema miniCompile (.num 7) c4Schema none none).errors
        = some ["must not match SchemaB"] := by
  have h := anyOf_no_match_last_errors miniCompile (.num 7) c4Schema
    [⟨none, none, .noSchema "SchemaA"⟩, ⟨none, none, .noSchema "SchemaB"⟩] none none
    ⟨none, none, .noSchema "SchemaB"⟩ rfl (by decide) (by decide)
  exact ⟨h.1, h.2.trans (by decide)⟩

/-! ## C6 — Create chain schema mismatch -/

/-- C6: a Create chain whose endpoint declares `body.schemas` requiring
`{name: string}`, performed on the document `{name: 123}`, throws the 403
"Restricted Data" error during `prePerform`. `perform` only assembles its
descriptor after `prePerform` succeeds (`Except.bind`), so the error
propagates and no (partial) operation descriptor is ever produced on a
schema mismatch. -/
theorem create_schema_mismatch_403 :
    createPerform miniCompile c2Meta none none "u1" c6Doc (some c6Body) .anySchema none none
      = .error { status := 403, title := "Restricted Data",
                 message := "The data you provided violates some of our policies. Check it or consulate support.",
                 detail := some ["property name must be string"] } := by decide

/-! ## C8 — `visitorVisit` is the only authentication-class (401) check -/

theorem checkRateLimit_deny_429 (path address : String) (windows : JsNum) (max : Int)
    (now : JsNum) (c : Cache) (e : StatusError)
    (h : (checkRateLimit path address windows max now c).2 = some e) : e.status = 429 := by
  rcases hf : c.findLive now (path ++ "-" ++ address) with _ | ⟨v, keyExp⟩ <;>
    simp only [checkRateLimit, hf] at h
  · simp at h
  · by_cases hz : v.jsEqZero = true
    · rw [if_pos hz] at h
      rcases hr : c.findLive now (path ++ "-" ++ address ++ "-retry") with _ | ⟨vr, tr⟩ <;>
        rw [hr] at h
      · simp at h
        subst h; rfl
      · cases vr with
        | num n => simp at h; subst h; rfl
        | nan => simp at h; subst h; rfl
        | retryVal r =>
          split at h <;> first
            | (split at h <;> (simp at h; subst h; rfl))
            | (simp at h; subst h; rfl)
    · rw [if_neg hz] at h
      simp at h

theorem validateAction_error_403 (a : String) (acts : List String) (e : StatusError)
    (h : validateAction a acts = some e) : e.status = 403 := by
  unfold validateAction at h
  by_cases hm : a ∈ acts
  · rw [if_pos hm] at h
    exact absurd h (by simp)
  · rw [if_neg hm, Option.some.injEq] at h
    subst h; rfl

theorem scanKeysLoop_error_403 (meta : ChainMeta) (pa : Option String) (sd : Bool)
    (o : JsonFields) (ks : List String) (e : StatusError)
    (h : scanKeysLoop meta pa sd o ks = .error e) : e.status = 403 := by
  induction ks generalizing o with
  | nil => simp [scanKeysLoop] at h
  | cons k rest ih =>
    unfold scanKeysLoop at h
    split at h
    · split at h
      · exact ih _ h
      · split at h
        next e' heq =>
          cases h
          exact validateAction_error_403 _ _ _ heq
        next => exact ih _ h
    · exact ih _ h

theorem scanKeyValuesLoop_error_403 (meta : ChainMeta) (pa : Option String) (sd : Bool)
    (o : JsonFields) (rec : List (String × KeyValSpec)) (e : StatusError)
    (h : scanKeyValuesLoop meta pa sd o rec = .error e) : e.status = 403 := by
  induction rec generalizing o with
  | nil => simp [scanKeyValuesLoop] at h
  | cons p rest ih =>
    obtain ⟨k, spec⟩ := p
    unfold scanKeyValuesLoop at h
    split at h
    · split at h
      · split at h
        · exact ih _ h
        · split at h
          next e' heq =>
            cases h
            exact validateAction_error_403 _ _ _ heq
          next => exact ih _ h
      · exact ih _ h
    · exact ih _ h

theorem except_bind_error {α β : Type} {ma : Except StatusError α} {f : α → Except StatusError β}
    {e : StatusError} (h : ma.bind f = .error e) :
    ma = .error e ∨ ∃ a, ma = .ok a ∧ f a = .error e := by
  cases ma with
  | error e' =>
    left
    have : e' = e := by simpa [Except.bind] using h
    rw [this]
  | ok a =>
    right
    exact ⟨a, rfl, by simpa [Except.bind] using h⟩

theorem keysStep_error_403 (meta : ChainMeta) (pa : Option String) (sd : Bool) (o : JsonFields)
    (oks : Option (List String)) (e : StatusError)
    (h : keysStep meta pa sd o oks = .error e) : e.status = 403 := by
  cases oks with
  | some ks => exact scanKeysLoop_error_403 _ _ _ _ _ _ h
  | none => simp [keysStep] at h

theorem valuesStep_error_403 (meta : ChainMeta) (pa : Option String) (sd : Bool) (o : JsonFields)
    (orec : Option KeyValue) (e : StatusError)
    (h : valuesStep meta pa sd o orec = .error e) : e.status = 403 := by
  cases orec with
  | some rec => exact scanKeyValuesLoop_error_403 _ _ _ _ _ _ h
  | none => simp [valuesStep] at h

theorem readDeniedScan_error_403 (meta : ChainMeta) (o : JsonFields) (eq : Option EndpointQuery)
    (e : StatusError) (h : readDeniedScan meta o eq = .error e) : e.status = 403 := by
  unfold readDeniedScan at h
  rcases except_bind_error h with h1 | ⟨f1, _, h2⟩
  · exact keysStep_error_403 _ _ _ _ _ _ h1
  · exact valuesStep_error_403 _ _ _ _ _ _ h2

theorem createDeniedScan_error_403 (meta : ChainMeta) (o : JsonFields) (eb : Option EndpointBody)
    (e : StatusError) (h : createDeniedScan meta o eb = .error e) : e.status = 403 := by
  unfold createDeniedScan at h
  rcases except_bind_error h with h1 | ⟨d1, _, h2⟩
  · exact keysStep_error_403 _ _ _ _ _ _ h1
  · exact valuesStep_error_403 _ _ _ _ _ _ h2

theorem deleteDeniedScan_error_403 (meta : ChainMeta) (o : JsonFields) (eq : Option EndpointQuery)
    (e : StatusError) (h : deleteDeniedScan meta o eq = .error e) : e.status = 403 := by
  unfold deleteDeniedScan at h
  rcases except_bind_error h with h1 | ⟨f1, _, h2⟩
  · exact keysStep_error_403 _ _ _ _ _ _ h1
  · exact valuesStep_error_403 _ _ _ _ _ _ h2

theorem updateDeniedScan_error_403 (meta : ChainMeta) (f u : JsonFields)
    (eq : Option EndpointQuery) (eb : Option EndpointBody) (e : StatusError)
    (h : updateDeniedScan meta f u eq eb = .error e) : e.status = 403 := by
  unfold updateDeniedScan at h
  rcases except_bind_error h with h1 | ⟨f1, _, h2⟩
  · exact keysStep_error_403 _ _ _ _ _ _ h1
  · rcases except_bind_error h2 with h3 | ⟨f2, _, h4⟩
    · exact valuesStep_error_403 _ _ _ _ _ _ h3
    · rcases except_bind_error h4 with h5 | ⟨u1, _, h6⟩
      · exact keysStep_error_403 _ _ _ _ _ _ h5
      · rcases except_bind_error h6 with h7 | ⟨u2, _, h8⟩
        · exact valuesStep_error_403 _ _ _ _ _ _ h7
        · simp at h8

theorem basePrePerform_error_403 (cb : Option Bool) (msg : Option String) (e : StatusError)
    (h : basePrePerform cb msg = some e) : e.status = 403 := by
  unfold basePrePerform at h
  rcases cb with _ | b
  · simp at h
  · cases b
    · rw [Option.some.injEq] at h
      subst h; rfl
    · simp at h

theorem createSchemaStage_error_403 (compile : CompileFn) (d : JsonFields)
    (eb : Option EndpointBody) (ms : CoreSchema) (e : StatusError)
    (h : createSchemaStage compile d eb ms = .error e) : e.status = 403 := by
  unfold createSchemaStage at h
  split at h
  · dsimp only at h
    split at h
    · simp at h
    · simp only [Except.error.injEq] at h
      subst h; rfl
  · split at h
    · dsimp only at h
      split at h
      · simp at h
      · simp only [Except.error.injEq] at h
        subst h; rfl
    · simp at h

theorem createPrePerform_error_403 (compile : CompileFn) (meta : ChainMeta) (cb : Option Bool)
    (msg : Option String) (doc : JsonFields) (eb : Option EndpointBody) (ms : CoreSchema)
    (e : StatusError) (h : createPrePerform compile meta cb msg doc eb ms = .error e) :
    e.status = 403 := by
  unfold createPrePerform at h
  split at h
  next e0 heq =>
    cases h
    exact basePrePerform_error_403 _ _ _ heq
  next =>
    rcases except_bind_error h with h1 | ⟨d, _, h2⟩
    · exact createDeniedScan_error_403 _ _ _ _ h1
    · exact createSchemaStage_error_403 _ _ _ _ _ h2

theorem updateQuerySchemaStage_error_403 (compile : CompileFn) (f : JsonFields)
    (eq : Option EndpointQuery) (e : StatusError)
    (h : updateQuerySchemaStage compile f eq = .error e) : e.status = 403 := by
  unfold updateQuerySchemaStage at h
  split at h
  · split at h
    · split at h
      · simp at h
      · simp only [Except.error.injEq] at h
        subst h; rfl
    · simp at h
  · simp at h

theorem updateBodySchemaStage_error_403 (compile : CompileFn) (u : JsonFields)
    (eq : Option EndpointQuery) (eb : Option EndpointBody) (e : StatusError)
    (h : updateBodySchemaStage compile u eq eb = .error e) : e.status = 403 := by
  unfold updateBodySchemaStage at h
  split at h
  · split at h
    · split at h
      · simp at h
      · simp only [Except.error.injEq] at h
        subst h; rfl
    · simp at h
  · simp at h

theorem updatePrePerform_error_403 (compile : CompileFn) (meta : ChainMeta) (cb : Option Bool)
    (msg : Option String) (f u : JsonFields) (eq : Option EndpointQuery)
    (eb : Option EndpointBody) (e : StatusError)
    (h : updatePrePerform compile meta cb msg f u eq eb = .error e) : e.status = 403 := by
  unfold updatePrePerform at h
  split at h
  next e0 heq =>
    cases h
    exact basePrePerform_error_403 _ _ _ heq
  next =>
    rcases except_bind_error h with h1 | ⟨fu, _, h2⟩
    · exact updateDeniedScan_error_403 _ _ _ _ _ _ h1
    · rcases except_bind_error h2 with h3 | ⟨_, _, h4⟩
      · exact updateQuerySchemaStage_error_403 _ _ _ _ h3
      · rcases except_bind_error h4 with h5 | ⟨_, _, h6⟩
        · exact updateBodySchemaStage_error_403 _ _ _ _ _ h5
        · simp at h6

theorem readSchemaCheck_error_403 (compile : CompileFn) (f : JsonFields)
    (eq : Option EndpointQuery) (e : StatusError)
    (h : readSchemaCheck compile f eq = .error e) : e.status = 403 := by
  unfold readSchemaCheck at h
  split at h
  · dsimp only at h
    split at h
    · simp at h
    · simp only [Except.error.injEq] at h
      subst h; rfl
  · simp at h

theorem deleteSchemaStage_error_403 (compile : CompileFn) (f : JsonFields)
    (eq : Option EndpointQuery) (e : StatusError)
    (h : deleteSchemaStage compile f eq = .error e) : e.status = 403 := by
  unfold deleteSchemaStage at h
  split at h
  · dsimp only at h
    split at h
    · simp at h
    · simp only [Except.error.injEq] at h
      subst h; rfl
  · simp at h

theorem deletePrePerform_error_403 (compile : CompileFn) (meta : ChainMeta) (cb : Option Bool)
    (msg : Option String) (f : JsonFields) (eq : Option EndpointQuery) (e : StatusError)
    (h : deletePrePerform compile meta cb msg f eq = .error e) : e.status = 403 := by
  unfold deletePrePerform at h
  split at h
  next e0 heq =>
    cases h
    exact basePrePerform_error_403 _ _ _ heq
  next =>
    rcases except_bind_error h with h1 | ⟨ff, _, h2⟩
    · exact deleteDeniedScan_error_403 _ _ _ _ h1
    · exact deleteSchemaStage_error_403 _ _ _ _ h2

theorem checkUser_error_403 (ty : UserType) (allowed : List UserType) (e : StatusError)
    (h : checkUser ty allowed = some e) : e.status = 403 := by
  unfold checkUser at h
  split at h
  · rw [Option.some.injEq] at h
    subst h; rfl
  · simp at h

theorem checkIfUserIs_error_403 (users : List UserType) (ty : UserType) (e : StatusError)
    (h : checkIfUserIs users ty = some e) : e.status = 403 := by
  unfold checkIfUserIs at h
  split at h
  · rw [Option.some.injEq] at h
    subst h; rfl
  · simp at h

/-- C8: `visitorVisit(canVisit)` produces a 401-status error exactly when
`canVisit` is false and the principal's type is the distinguished visitor
type — and it is the only check in the chain that does: every other
error-producing check of the chain yields an authorization-class 403
(user-type checks, predicate check, per-field action validation, every
chain's `prePerform` pipeline) or a 429 (rate limiting), never a 401. -/
theorem visitorVisit_only_authentication_error :
    (∀ (can : Bool) (ty : UserType),
        (∃ e, visitorVisit can ty = some e ∧ e.status = 401)
          ↔ (can = false ∧ ty = UserType.visitor))
    ∧ (∀ ty allowed e, checkUser ty allowed = some e → e.status = 403)
    ∧ (∀ users ty e, checkIfUserIs users ty = some e → e.status = 403)
    ∧ (∀ cb msg e, basePrePerform cb msg = some e → e.status = 403)
    ∧ (∀ a acts e, validateAction a acts = some e → e.status = 403)
    ∧ (∀ path address windows max now c e,
        (checkRateLimit path address windows max now c).2 = some e → e.status = 429)
    ∧ (∀ compile meta cb msg f u eq eb e,
        updatePrePerform compile meta cb msg f u eq eb = .error e → e.status = 403)
    ∧ (∀ compile meta cb msg d eb ms e,
        createPrePerform compile meta cb msg d eb ms = .error e → e.status = 403)
    ∧ (∀ compile f eq e, readSchemaCheck compile f eq = .error e → e.status = 403)
    ∧ (∀ compile meta cb msg f eq e,
        deletePrePerform compile meta cb msg f eq = .error e → e.status = 403) := by
  refine ⟨?_, checkUser_error_403, checkIfUserIs_error_403, basePrePerform_error_403,
    validateAction_error_403, checkRateLimit_deny_429, updatePrePerform_error_403,
    createPrePerform_error_403, readSchemaCheck_error_403, deletePrePerform_error_403⟩
  intro can ty
  constructor
  · rintro ⟨e, he, hs⟩
    unfold visitorVisit at he
    split at he
    next hc =>
      simp only [Bool.and_eq_true, Bool.not_eq_eq_eq_not, Bool.not_true, beq_iff_eq] at hc
      exact ⟨hc.1, hc.2⟩
    next => simp at he
  · rintro ⟨hc, hty⟩
    subst hc; subst hty
    exact ⟨_, rfl, rfl⟩

/-- Witness for C8: the visitor without access receives 401; a concrete
rejected user-type check receives 403. -/
theorem visitorVisit_only_authentication_error_witness :
    (∃ e, visitorVisit false UserType.visitor = some e ∧ e.status = 401)
    ∧ ({ status := 403, title := "Invalid Account",
         message := "Sorry, your account is not able to perform this action." } : StatusError).status
        = 403 :=
  ⟨(visitorVisit_only_authentication_error.1 false UserType.visitor).mpr ⟨rfl, rfl⟩,
   visitorVisit_only_authentication_error.2.1 UserType.member [UserType.admin] _ (by decide)⟩
